import Mathlib

set_option maxRecDepth 8192
set_option linter.unusedVariables false

/-!
Shallow embedding of the dynamic filter/sort/pagination pipeline of the
generic REST endpoint factory (`backend/app/api/endpoint_generator/`:
`params_funcs.py`, `filter_generator.py`, `generator.py`, `api_models.py`,
together with `app/models.py`), and proofs checking the natural-language
specification of the repository against it.

Conventions of the embedding:
* Python dicts that are built by insertion are modelled as insertion-ordered
  association lists (`List (String × Value)`).
* SQL statements are symbolic: a list of accumulated WHERE clauses plus a
  list of ORDER BY clauses.
* Fallible request-handler code returns `Except PyErr _`; `PyErr` covers the
  raised `HTTPException`s (detail strings omitted, status codes kept) and the
  plain Python runtime errors the code can hit.
* Query execution against the storage layer is modelled on row lists: a
  count query returns the list length, `offset`/`limit` become drop/take,
  and a commit of a mutated row rewrites it in the table list.
-/

deriving instance DecidableEq for Except

/-- Tri-state lifecycle column (`app/models.py`, `class Status`). -/
inductive Status
  | active
  | inactive
  | deleted
deriving DecidableEq, Repr

/-- Database row of a registered record type.  `id` and `status_id` come
from `SuperBase`; `name` stands for the payload columns (as in `City`).
The audit columns play no role in any verified claim and are omitted. -/
structure Row where
  id : Int
  status_id : Status
  name : String
deriving DecidableEq, Repr

/-- Python values that can appear in a filter mapping.  Floating-point
values are modelled as rationals, datetimes by their ISO string. -/
inductive Value
  | vStr (s : String)
  | vInt (n : Int)
  | vFloat (q : ℚ)
  | vBool (b : Bool)
  | vDatetime (iso : String)
  | vIntList (ns : List Int)
  | vStrList (ss : List String)
deriving DecidableEq, Repr

/-- Python truthiness of a value (used by the generated `if param:` tests). -/
def Value.truthy : Value → Bool
  | .vStr s => !s.data.isEmpty
  | .vInt n => n != 0
  | .vFloat q => q != 0
  | .vBool b => b
  | .vDatetime _ => true
  | .vIntList ns => !ns.isEmpty
  | .vStrList ss => !ss.isEmpty

/-- Python `str()` / f-string interpolation of a value.  In the verified
claims it is only ever applied to `vStr` values (the `like`/`in` query
parameters are declared `Optional[str]`), where it is the identity. -/
def Value.pyStr : Value → String
  | .vStr s => s
  | .vInt n => toString n
  | .vFloat q => toString q
  | .vBool b => if b then "True" else "False"
  | .vDatetime iso => iso
  | .vIntList _ => "[...]"
  | .vStrList _ => "[...]"

/-- Errors a request handler can raise: `HTTPException(status_code)` with the
detail string omitted, or a plain Python runtime error. -/
inductive PyErr
  | http (status_code : Nat)
  | typeError
  | attributeError
  | valueError
  | argumentError
deriving DecidableEq, Repr

/-- Symbolic SQL predicate of a WHERE clause. -/
inductive SqlPred
  | statusEq (s : Status)
  | eqP (col : String) (v : Value)
  | ilikeP (col : String) (v : Value)
  | inP (col : String) (v : Value)
  | gteP (col : String) (v : Value)
  | lteP (col : String) (v : Value)
  | gtP (col : String) (v : Value)
  | ltP (col : String) (v : Value)
  | boolLit (b : Bool)
deriving DecidableEq, Repr

inductive SortDir
  | asc
  | desc
deriving DecidableEq, Repr

/-- Symbolic select statement: accumulated WHERE clauses (all ANDed) and
ORDER BY clauses, each in order of application. -/
structure Statement where
  wheres : List SqlPred := []
  orders : List (String × SortDir) := []
deriving DecidableEq, Repr

def Statement.empty : Statement := {}

/-- `statement.where(p)` / `statement.filter(p)`: append one WHERE clause. -/
def Statement.filter (st : Statement) (p : SqlPred) : Statement :=
  { st with wheres := st.wheres ++ [p] }

/-- `statement.order_by(asc(col))` or `order_by(desc(col))`: append one
ordering clause after the prior ones. -/
def Statement.orderBy (st : Statement) (c : String) (d : SortDir) : Statement :=
  { st with orders := st.orders ++ [(c, d)] }

/-- The slice of a SQLModel table class the pipeline relies on: its column
names.  `getattr(model_db, name, None)` returns a column exactly for these
names and `None` otherwise. -/
structure ModelDB where
  columns : List String
deriving DecidableEq, Repr

/-- Columns of the `City` table (`app/models.py`: `SuperBase` + `CityBase`). -/
def cityModel : ModelDB :=
  ⟨["id", "created_at", "created_by", "updated_at", "updated_by", "status_id",
    "name", "region_id"]⟩

/-- `set_status` (`params_funcs.py` lines 16-17):
`statement.where(model_db.status_id == status)`. -/
def set_status (statement : Statement) (status : Status) : Statement :=
  statement.filter (.statusEq status)

/-- Python `s.split(sep)` for a single-character separator, on character
lists. -/
def splitOnChar (sep : Char) : List Char → List (List Char)
  | [] => [[]]
  | c :: rest =>
    if c = sep then [] :: splitOnChar sep rest
    else
      match splitOnChar sep rest with
      | [] => [[c]]
      | h :: t => (c :: h) :: t

/-- Python `s.strip()` (whitespace scope: ASCII). -/
def pyStrip (s : String) : String :=
  String.mk (((s.data.dropWhile Char.isWhitespace).reverse.dropWhile
    Char.isWhitespace).reverse)

/-- Python `s.split(",")`. -/
def splitComma (s : String) : List String :=
  (splitOnChar ',' s.data).map fun cs => String.mk cs

/-- Python `s.startswith(p)`. -/
def pyStartsWith (s p : String) : Bool := p.data.isPrefixOf s.data

/-- Python `k.split("__")` on character lists: non-overlapping occurrences,
scanned left to right. -/
def splitDunder : List Char → List (List Char)
  | [] => [[]]
  | '_' :: '_' :: rest => [] :: splitDunder rest
  | c :: rest =>
    match splitDunder rest with
    | [] => [[c]]
    | h :: t => (c :: h) :: t

/-- No two consecutive underscores occur in the character list. -/
def noDunder : List Char → Bool
  | [] => true
  | '_' :: '_' :: _ => false
  | _ :: rest => noDunder rest

/-- Python `k.split("__")` on strings. -/
def pySplitDunder (k : String) : List String :=
  (splitDunder k.data).map fun cs => String.mk cs

/-- Column segment of a filter-mapping key: `elems[0]` in `set_filters`. -/
def key_col (k : String) : String := (pySplitDunder k).headD ""

/-- Operator segment of a filter-mapping key: `elems[1]` when `k.split("__")`
has more than one element, else the implicit `eq`
(`set_filters`, `params_funcs.py` lines 130-135). -/
def key_op (k : String) : String :=
  match pySplitDunder k with
  | _ :: e :: _ => e
  | _ => "eq"

/-- Body of the per-entry loop of `set_filters` (`params_funcs.py` lines
129-166).  When the column segment names no model column, the source
constructs `HTTPException(400)` but never raises it (the `raise` keyword is
missing on line 139), so the failed lookup aborts nothing by itself; the
branch of the selected operator then runs with `column = None`:
* `eq`: `None == v` is the plain Python `False` (`v` is never `None` here),
  so `.filter(False)` is appended;
* `ilike`, `in`: `None.ilike(v)` / `None.in_(v)` raise `AttributeError`;
* `gte`, `lte`, `gt`, `lt`: an ordered comparison with `None` raises
  `TypeError`;
* any other operator segment reaches the final `else` and raises
  `HTTPException(status_code=422)`. -/
def apply_filter_entry (model_db : ModelDB) (st : Statement) (k : String) (v : Value) :
    Except PyErr Statement :=
  let column : Option String :=
    if model_db.columns.contains (key_col k) then some (key_col k) else none
  if key_op k = "eq" then
    match column with
    | some c => .ok (st.filter (.eqP c v))
    | none => .ok (st.filter (.boolLit false))
  else if key_op k = "ilike" then
    match column with
    | some c => .ok (st.filter (.ilikeP c v))
    | none => .error .attributeError
  else if key_op k = "in" then
    match column with
    | some c => .ok (st.filter (.inP c v))
    | none => .error .attributeError
  else if key_op k = "gte" then
    match column with
    | some c => .ok (st.filter (.gteP c v))
    | none => .error .typeError
  else if key_op k = "lte" then
    match column with
    | some c => .ok (st.filter (.lteP c v))
    | none => .error .typeError
  else if key_op k = "gt" then
    match column with
    | some c => .ok (st.filter (.gtP c v))
    | none => .error .typeError
  else if key_op k = "lt" then
    match column with
    | some c => .ok (st.filter (.ltP c v))
    | none => .error .typeError
  else .error (.http 422)

/-- The dead `new_dict` pass at the top of `set_filters` (`params_funcs.py`
lines 122-127): it calls `v.isoformat()` on every value whose key starts
with `created_at`, then discards the dict it built (the main loop iterates
`filters`, not `new_dict`).  Its only observable effect is an
`AttributeError` when such a value is not a datetime. -/
def created_at_pass : List (String × Value) → Except PyErr Unit
  | [] => .ok ()
  | (k, v) :: rest =>
    if pyStartsWith k "created_at" then
      match v with
      | .vDatetime _ => created_at_pass rest
      | _ => .error .attributeError
    else created_at_pass rest

def set_filters_loop (model_db : ModelDB) :
    Statement → List (String × Value) → Except PyErr Statement
  | st, [] => .ok st
  | st, (k, v) :: rest => do
    let st' ← apply_filter_entry model_db st k v
    set_filters_loop model_db st' rest

/-- `set_filters` (`params_funcs.py` lines 117-168).  The filter mapping is
an insertion-ordered association list, mirroring the Python dict. -/
def set_filters (statement : Statement) (model_db : ModelDB)
    (filters : List (String × Value)) : Except PyErr Statement :=
  if filters.isEmpty then .ok statement
  else do
    created_at_pass filters
    set_filters_loop model_db statement filters

/-- Loop body of `parse_sort_string` (`params_funcs.py` lines 60-70): a
leading `-` marks descending and is stripped (with `field[1:].strip()`)
before taking the column name; a lone `-` contributes nothing; otherwise
the field is ascending. -/
def parse_sort_step (acc : List String × List String) (field : String) :
    List String × List String :=
  if pyStartsWith field "-" then
    let column_name := pyStrip (String.mk (field.data.drop 1))
    if !column_name.data.isEmpty then (acc.1 ++ [column_name], acc.2 ++ ["desc"])
    else acc
  else (acc.1 ++ [field], acc.2 ++ ["asc"])

/-- `parse_sort_string` (`params_funcs.py` lines 35-72): parses the sort
directive string into the parallel lists `(sort_columns, sort_orders)`. -/
def parse_sort_string (sort_string : String) : List String × List String :=
  if sort_string.data.isEmpty || (pyStrip sort_string).data.isEmpty then ([], [])
  else
    let fields := ((splitComma sort_string).map pyStrip).filter fun f => !f.data.isEmpty
    fields.foldl parse_sort_step ([], [])

/-- `apply_sorting` (`params_funcs.py` lines 75-114), at the list-typed
arguments its caller passes (the `str`-to-list coercion branches collapse).
An unknown sort column raises `sqlalchemy.exc.ArgumentError`, not an
`HTTPException`. -/
def apply_sorting (statement : Statement) (model_db : ModelDB)
    (sort_columns : List String) (sort_orders : List String) : Except PyErr Statement :=
  if !sort_orders.isEmpty && sort_columns.isEmpty then .error .valueError
  else if sort_columns.isEmpty then .ok statement
  else if !sort_orders.isEmpty &&
      (sort_columns.length != sort_orders.length
        || sort_orders.any fun o => o != "asc" && o != "desc") then
    .error .valueError
  else
    let validated :=
      if sort_orders.isEmpty then List.replicate sort_columns.length "asc"
      else sort_orders
    (sort_columns.zip validated).foldlM
      (fun st co =>
        if model_db.columns.contains co.1 then
          .ok (st.orderBy co.1 (if co.2 = "asc" then .asc else .desc))
        else .error .argumentError)
      statement

/-- `set_sorting` (`params_funcs.py` lines 171-182).  For `sort == None` the
statement is returned unchanged.  For every non-`None` `sort` the source
invokes `apply_sorting(stmt=statement, ...)`, but `apply_sorting` has no
parameter named `stmt` (its first parameter is named `statement`), so the
call itself raises `TypeError` before `apply_sorting` runs. -/
def set_sorting (statement : Statement) (model_db : ModelDB) (sort : Option String) :
    Except PyErr Statement :=
  match sort with
  | none => .ok statement
  | some _ => .error .typeError

/-- `PaginationParams` (`api_models.py` lines 32-37): `page ≥ 1` with default
1, `1 ≤ per_page ≤ 1000` with default 50; the bounds are enforced by
pydantic validation before a handler runs. -/
structure PaginationParams where
  page : Nat := 1
  per_page : Nat := 50
deriving DecidableEq, Repr

def PaginationParams.valid (p : PaginationParams) : Prop :=
  1 ≤ p.page ∧ 1 ≤ p.per_page ∧ p.per_page ≤ 1000

/-- `CommonQueryParams` (`api_models.py` lines 39-42), with its field
defaults. -/
structure CommonQueryParams where
  status : Status := .active
  sort : Option String := none
  pagination : PaginationParams := {}
deriving DecidableEq, Repr

/-- `PaginatedResponse` (`api_models.py` lines 24-29). -/
structure PaginatedResponse (α : Type) where
  data : List α
  page : Nat
  per_page : Nat
  total_records : Nat
  pages : Nat
deriving DecidableEq, Repr

/-- `set_offset_limit` (`params_funcs.py` lines 185-206), evaluated against
the executed row sequence of the composed statement: the count query
returns its length; `offset`/`limit` window it by drop/take.  Python's
`//` on the non-negative operands equals `Nat` division. -/
def set_offset_limit {α : Type} (rows : List α) (pagination : PaginationParams) :
    PaginatedResponse α :=
  let total := rows.length
  let pages := (total + pagination.per_page - 1) / pagination.per_page
  let offset := (pagination.page - 1) * pagination.per_page
  { data := (rows.drop offset).take pagination.per_page
    page := pagination.page
    per_page := pagination.per_page
    total_records := total
    pages := pages }

/-- The statement-building part of `_get_list` (`generator.py` lines 93-108):
`select(model_db)`, then `set_status`, `set_filters`, `set_sorting`, in that
order. -/
def get_list_statement (model_db : ModelDB) (status : Status)
    (filters : List (String × Value)) (sort : Option String) :
    Except PyErr Statement := do
  let st := set_status Statement.empty status
  let st ← set_filters st model_db filters
  set_sorting st model_db sort

/-- Executed row semantics of the list query when the caller supplies no
filters and no sort: the composed statement is exactly
`SELECT * FROM t WHERE status_id = status`, which keeps the rows whose
`status_id` equals the requested scope. -/
def list_default_scope (db : List Row) (status : Status) : List Row :=
  db.filter fun r => r.status_id == status

/-- Commit of an in-place mutation of the first row matching `p`: the found
ORM object is mutated and committed, leaving the other rows unchanged. -/
def updateFirst (p : Row → Bool) (f : Row → Row) : List Row → List Row
  | [] => []
  | r :: rest => if p r then f r :: rest else r :: updateFirst p f rest

/-- `_get_one` (`generator.py` lines 70-81): `session.get(self.model_db, id)`
is a primary-key lookup; 403 when absent.  No status constraint appears. -/
def get_one (db : List Row) (id : Int) : Except PyErr Row :=
  match db.find? (fun r => r.id == id) with
  | none => .error (.http 403)
  | some r => .ok r

/-- `_update_one` (`generator.py` lines 139-163): primary-key lookup via
`session.get` (again without status constraint), then field update and
commit.  The update payload is modelled by the optional new `name`. -/
def update_one (db : List Row) (id : Int) (new_name : Option String) :
    Except PyErr (Row × List Row) :=
  match db.find? (fun r => r.id == id) with
  | none => .error (.http 403)
  | some r =>
    .ok ({ r with name := new_name.getD r.name },
      updateFirst (fun x => x.id == id)
        (fun x => { x with name := new_name.getD x.name }) db)

/-- `_delete_one` (`generator.py` lines 165-184): looks up the first row with
the given id and `status_id != Status.deleted`; 404 otherwise; sets
`status_id = deleted`, commits, and returns the refreshed record together
with the committed table. -/
def delete_one (db : List Row) (id : Int) : Except PyErr (Row × List Row) :=
  match db.find? (fun r => r.id == id && !(r.status_id == .deleted)) with
  | none => .error (.http 404)
  | some r =>
    .ok ({ r with status_id := Status.deleted },
      updateFirst (fun x => x.id == id && !(x.status_id == .deleted))
        (fun x => { x with status_id := Status.deleted }) db)

/-- `_restore_one` (`generator.py` lines 186-207): looks up the first row
with the given id and `status_id == Status.deleted`; 404 otherwise; sets
`status_id = active`, commits, and returns the refreshed record together
with the committed table. -/
def restore_one (db : List Row) (id : Int) : Except PyErr (Row × List Row) :=
  match db.find? (fun r => r.id == id && r.status_id == .deleted) with
  | none => .error (.http 404)
  | some r =>
    .ok ({ r with status_id := Status.active },
      updateFirst (fun x => x.id == id && x.status_id == .deleted)
        (fun x => { x with status_id := Status.active }) db)

/-- SQLAlchemy storage type tags seen by `FilterGenerator`.  `sOther` stands
for every type outside the mapped set. -/
inductive SqlType
  | sString
  | sAutoString
  | sInteger
  | sFloat
  | sDateTime
  | sBoolean
  | sOther
deriving DecidableEq, Repr

inductive PyType
  | pStr
  | pInt
  | pFloat
  | pBool
  | pDatetime
deriving DecidableEq, Repr

/-- `FilterGenerator._get_operators_for_type` (`filter_generator.py` lines
26-33 and 89-95): first matching `TYPE_OPERATORS` entry, fallback `["eq"]`
for unmapped types. -/
def get_operators_for_type : SqlType → List String
  | .sString => ["eq", "like", "in"]
  | .sAutoString => ["eq", "like", "in"]
  | .sInteger => ["eq", "in"]
  | .sFloat => ["eq"]
  | .sDateTime => ["gte", "lte", "gt", "lt"]
  | .sBoolean => ["eq"]
  | .sOther => ["eq"]

/-- `FilterGenerator._get_python_type` (`filter_generator.py` lines 72-87),
fallback `str` for unmapped types. -/
def get_python_type : SqlType → PyType
  | .sString => .pStr
  | .sAutoString => .pStr
  | .sInteger => .pInt
  | .sFloat => .pFloat
  | .sDateTime => .pDatetime
  | .sBoolean => .pBool
  | .sOther => .pStr

/-- `FilterGenerator.OPERATOR_MAPPING` (`filter_generator.py` lines 48-56):
operator name to key suffix. -/
def OPERATOR_MAPPING : List (String × String) :=
  [("eq", ""), ("like", "__ilike"), ("gt", "__gt"), ("gte", "__gte"),
   ("lt", "__lt"), ("lte", "__lte"), ("in", "__in")]

/-- `OPERATOR_MAPPING[operator]`.  Only the seven mapped operator names ever
reach this lookup (any other key would be a Python `KeyError`). -/
def operator_suffix (op : String) : String :=
  ((OPERATOR_MAPPING.find? fun e => e.1 == op).map fun e => e.2).getD ""

/-- Digit body of a Python integer literal: ASCII digits with single
underscores strictly between digits. -/
def py_digits (cs : List Char) : Bool :=
  !cs.isEmpty && cs.head? != some '_' && cs.getLast? != some '_'
    && cs.all (fun c => c.isDigit || c == '_') && noDunder cs

def digitsVal (cs : List Char) : Nat :=
  cs.foldl (fun n c => if c == '_' then n else n * 10 + (c.toNat - 48)) 0

/-- Python `int(s)` on an already-stripped string: optional sign, then a
digit body; `none` models the raised `ValueError`. -/
def py_int? (s : String) : Option Int :=
  let signBody : Int × List Char :=
    match s.data with
    | '+' :: rest => (1, rest)
    | '-' :: rest => (-1, rest)
    | cs => (1, cs)
  if py_digits signBody.2 then some (signBody.1 * Int.ofNat (digitsVal signBody.2))
  else none

/-- Request-time body synthesized by `FilterGenerator.generate_filter_function`
for one `(column, operator)` pair (`filter_generator.py` lines 127-156):
conditionally inserts one entry into the filter mapping.
* `like`: inserted when the parameter is truthy, value wrapped as
  `f'%{param}%'`, key `column__ilike` (`OPERATOR_MAPPING["like"]`);
* `in`: inserted when truthy; the raw string is split on commas and every
  element stripped; on an integer column each element goes through `int()`,
  and a `ValueError` is caught and drops the whole filter;
* every other operator: inserted whenever the parameter `is not None`. -/
def collect_op (field_name : String) (field_type : SqlType) (op : String)
    (provided : String → Option Value) : List (String × Value) :=
  let key := field_name ++ operator_suffix op
  match provided ("filter_" ++ field_name ++ "_" ++ op) with
  | none => []
  | some v =>
    if op == "like" then
      if v.truthy then [(key, .vStr ("%" ++ v.pyStr ++ "%"))] else []
    else if op == "in" then
      if v.truthy then
        if get_python_type field_type == .pInt then
          match ((splitComma v.pyStr).map pyStrip).mapM py_int? with
          | some ns => [(key, .vIntList ns)]
          | none => []
        else [(key, .vStrList ((splitComma v.pyStr).map pyStrip))]
      else []
    else [(key, v)]

def collect_field (field_name : String) (field_type : SqlType)
    (provided : String → Option Value) : List String → List (String × Value)
  | [] => []
  | op :: ops =>
    collect_op field_name field_type op provided
      ++ collect_field field_name field_type provided ops

/-- The synthesized `generated_filter_function`: iterates the model fields
and their permitted operators in declaration order and returns the filter
mapping (insertion-ordered, mirroring the Python dict; the generated keys
are pairwise distinct for distinct field names without `__`). -/
def generated_filter_function (fields : List (String × SqlType))
    (provided : String → Option Value) : List (String × Value) :=
  match fields with
  | [] => []
  | (f, t) :: rest =>
    collect_field f t provided (get_operators_for_type t)
      ++ generated_filter_function rest provided

/-- Per-token directive of the specification's sort parser (§4.3). -/
def spec_sort_tok (tok : String) : Option (String × SortDir) :=
  if tok.data.isEmpty then none
  else if pyStartsWith tok "-" then
    let c := pyStrip (String.mk (tok.data.drop 1))
    if c.data.isEmpty then none else some (c, .desc)
  else some (tok, .asc)

/-- Sort directive list built from the words of the specification (§4.3), for
comparison with `parse_sort_string`: split on commas, trim each token, drop
empty tokens, a leading `-` marks descending and is stripped before taking
the column name, a token that is only `-` is dropped, order preserved
without deduplication. -/
def spec_parse_sort (s : String) : List (String × SortDir) :=
  ((splitComma s).map pyStrip).filterMap spec_sort_tok

def SortDir.pyName : SortDir → String
  | .asc => "asc"
  | .desc => "desc"

/-! ## Generic lemmas -/

theorem find?_isSome_eq_any {α : Type} (p : α → Bool) (l : List α) :
    (l.find? p).isSome = l.any p := by
  induction l with
  | nil => rfl
  | cons a t ih =>
    by_cases h : p a
    · simp [List.find?_cons_of_pos _ h, h]
    · simp [List.find?_cons_of_neg _ h, h, ih]

theorem ceil_div_eq (t pp : Nat) (h : 1 ≤ pp) :
    (t + pp - 1) / pp = t / pp + (if t % pp = 0 then 0 else 1) := by
  have hmod := Nat.div_add_mod t pp
  have hlt : t % pp < pp := Nat.mod_lt _ (by omega)
  by_cases h0 : t % pp = 0
  · have ht : t + pp - 1 = pp * (t / pp) + (pp - 1) := by omega
    have hdiv : (pp - 1) / pp = 0 := Nat.div_eq_of_lt (by omega)
    rw [ht, Nat.mul_add_div (by omega), hdiv]
    simp [h0]
  · have hx : pp * (t / pp + 1) = pp * (t / pp) + pp := by ring
    have ht : t + pp - 1 = pp * (t / pp + 1) + (t % pp - 1) := by omega
    have hdiv : (t % pp - 1) / pp = 0 := Nat.div_eq_of_lt (by omega)
    rw [ht, Nat.mul_add_div (by omega), hdiv]
    simp [h0]

/-! ## The claims -/

/-- C3: for every page ≥ 1, per_page in 1..1000 and row count ≥ 0, the pager
reports the raw count, computes `pages` by ceiling division, windows the
data at `offset = (page-1)*per_page` with limit `per_page` (element `k` of
the page is element `offset + k` of the full result), and `pages = 0` holds
iff `total_records = 0`. -/
theorem pager_envelope {α : Type} (rows : List α) (page per_page : Nat)
    (hpage : 1 ≤ page) (hpp : 1 ≤ per_page) (hcap : per_page ≤ 1000) :
    (set_offset_limit rows ⟨page, per_page⟩).total_records = rows.length
    ∧ (set_offset_limit rows ⟨page, per_page⟩).pages
        = rows.length / per_page + (if rows.length % per_page = 0 then 0 else 1)
    ∧ ((set_offset_limit rows ⟨page, per_page⟩).pages = 0 ↔ rows.length = 0)
    ∧ (set_offset_limit rows ⟨page, per_page⟩).data
        = (rows.drop ((page - 1) * per_page)).take per_page
    ∧ ∀ k : Nat, k < per_page →
        (set_offset_limit rows ⟨page, per_page⟩).data[k]?
          = rows[(page - 1) * per_page + k]? := by
  refine ⟨rfl, ceil_div_eq _ _ hpp, ?_, rfl, ?_⟩
  · rw [show (set_offset_limit rows ⟨page, per_page⟩).pages
        = (rows.length + per_page - 1) / per_page from rfl,
      Nat.div_eq_zero_iff (by omega)]
    omega
  · intro k hk
    rw [show (set_offset_limit rows ⟨page, per_page⟩).data
        = (rows.drop ((page - 1) * per_page)).take per_page from rfl,
      List.getElem?_take, List.getElem?_drop]
    simp [hk]

/-- Witness for C3 at the concrete input of the specification's end-to-end
example: 25 rows, page 2, per_page 10. -/
theorem pager_envelope_witness :
    (set_offset_limit (List.replicate 25 (0 : Nat)) ⟨2, 10⟩).total_records = 25
    ∧ (set_offset_limit (List.replicate 25 (0 : Nat)) ⟨2, 10⟩).pages = 3
    ∧ (set_offset_limit (List.replicate 25 (0 : Nat)) ⟨2, 10⟩).data
        = ((List.replicate 25 (0 : Nat)).drop 10).take 10 := by
  have h := pager_envelope (List.replicate 25 (0 : Nat)) 2 10 (by decide) (by decide) (by decide)
  exact ⟨by rw [h.1]; decide, by rw [h.2.1]; decide, by rw [h.2.2.2.1]⟩

/-- C2 (evidence of the code bug): a list request that supplies any sort
string fails with `TypeError` instead of appending ordering clauses: the
call `apply_sorting(stmt=statement, ...)` in `set_sorting` names a parameter
`stmt` that `apply_sorting` does not have (its parameter is `statement`). -/
theorem sorted_list_request_raises_typeerror :
    get_list_statement cityModel .active [] (some "name") = .error .typeError := by
  decide

/-- C9: for every storage type tag the classifier returns a non-empty
operator list that is a subset of the global operator set (the keys of
`OPERATOR_MAPPING`), and an unmapped tag yields exactly `["eq"]` with native
type `str`. -/
theorem type_classifier_safe_default :
    (∀ T : SqlType, get_operators_for_type T ≠ []
        ∧ ∀ op ∈ get_operators_for_type T, op ∈ OPERATOR_MAPPING.map Prod.fst)
    ∧ get_operators_for_type .sOther = ["eq"]
    ∧ get_python_type .sOther = .pStr := by
  refine ⟨fun T => ?_, rfl, rfl⟩
  cases T <;> exact ⟨by decide, by decide⟩

/-- Witness for C9: the theorem applied at the text tag and the `like`
operator. -/
theorem type_classifier_safe_default_witness :
    "like" ∈ OPERATOR_MAPPING.map Prod.fst :=
  (type_classifier_safe_default.1 .sString).2 "like" (by decide)

/-- Counterexample to C1 as stated: the view and update operations do not
constrain their row lookup on the status column at all — on a table whose
only row is in `deleted` status (hence outside every claimed default
`active` scope) both operations find the row and succeed. -/
theorem view_update_ignore_status_counterexample :
    get_one [⟨1, .deleted, "gone"⟩] 1 = .ok ⟨1, .deleted, "gone"⟩
    ∧ update_one [⟨1, .deleted, "gone"⟩] 1 (some "renamed")
        = .ok (⟨1, .deleted, "renamed"⟩, [⟨1, .deleted, "renamed"⟩]) :=
  ⟨by decide, by decide⟩

/-- Counterexample to C5 as stated: an entry whose column segment names no
column of the model does halt query construction when its operator is not
`eq` — here `ghost__gte` raises `TypeError` (the ordered comparison
`None >= 5`), so the request dies with an internal error. -/
theorem unknown_column_halts_counterexample :
    set_filters Statement.empty cityModel [("ghost__gte", .vInt 5)]
      = .error .typeError := by decide

/-- Counterexample to C6 as stated: the key emitted for a provided `like`
parameter is `column__ilike` (via `OPERATOR_MAPPING["like"] = "__ilike"`),
not `column__like`. -/
theorem like_filter_key_counterexample :
    generated_filter_function [("name", .sString)]
        (fun p => if p = "filter_name_like" then some (.vStr "bob") else none)
      = [("name__ilike", .vStr "%bob%")]
    ∧ (generated_filter_function [("name", .sString)]
        (fun p => if p = "filter_name_like" then some (.vStr "bob") else none)).lookup
          "name__like" = none :=
  ⟨by decide, by decide⟩

/-- Counterexample to C10 as stated: for a model with a column named `a__b`
(a legal Python identifier and SQL column name), the synthesizer emits the
bare-eq key `a__b`, which the composer splits into column `a` and operator
`b`, reaching the unsupported-operator branch: the 422 branch is reachable
from a synthesizer-produced mapping. -/
theorem synthesized_key_422_counterexample :
    set_filters Statement.empty ⟨["a__b"]⟩
        (generated_filter_function [("a__b", .sString)]
          (fun p => if p = "filter_a__b_eq" then some (.vStr "x") else none))
      = .error (.http 422) := by decide

theorem splitOnChar_no_sep {sep : Char} {cs : List Char} (h : ∀ c ∈ cs, c ≠ sep) :
    splitOnChar sep cs = [cs] := by
  induction cs with
  | nil => rfl
  | cons c rest ih =>
    have hc : ¬(c = sep) := h c (by simp)
    simp [splitOnChar, hc, ih fun x hx => h x (by simp [hx])]

theorem all_ws_of_strip_empty {s : String} (h : (pyStrip s).data = []) :
    ∀ c ∈ s.data, c.isWhitespace := by
  have h2 : ((s.data.dropWhile Char.isWhitespace).reverse.dropWhile
      Char.isWhitespace).reverse = [] := h
  rw [List.reverse_eq_nil_iff, List.dropWhile_eq_nil_iff] at h2
  intro c hc
  have hsplit := List.takeWhile_append_dropWhile Char.isWhitespace s.data
  rw [← hsplit] at hc
  rcases List.mem_append.mp hc with h3 | h3
  · exact List.mem_takeWhile_imp h3
  · exact h2 c (List.mem_reverse.mpr h3)

theorem spec_parse_sort_all_ws {s : String} (h : ∀ c ∈ s.data, c.isWhitespace) :
    spec_parse_sort s = [] := by
  have hsep : ∀ c ∈ s.data, c ≠ ',' := by
    intro c hc hc'
    have hw := h c hc
    rw [hc'] at hw
    exact absurd hw (by decide)
  have hdw : s.data.dropWhile Char.isWhitespace = [] := List.dropWhile_eq_nil_iff.mpr h
  have hstrip : (pyStrip s).data = [] := by simp [pyStrip, hdw]
  unfold spec_parse_sort splitComma
  rw [splitOnChar_no_sep hsep]
  have hg : spec_sort_tok (pyStrip (String.mk s.data)) = none := by
    simp [spec_sort_tok, show (pyStrip (String.mk s.data)).data = [] from hstrip]
  simp [hg]

theorem parse_sort_step_eq (acc : List String × List String) (t : String) :
    parse_sort_step acc t
      = (acc.1 ++ (parse_sort_step ([], []) t).1,
         acc.2 ++ (parse_sort_step ([], []) t).2) := by
  by_cases h1 : pyStartsWith t "-" = true <;>
    by_cases h2 : (pyStrip (String.mk t.data.tail)).data = [] <;>
      simp [parse_sort_step, h1, h2]

theorem foldl_parse_sort_step (ts : List String) (a b : List String) :
    ts.foldl parse_sort_step (a, b)
      = (a ++ (ts.foldl parse_sort_step ([], [])).1,
         b ++ (ts.foldl parse_sort_step ([], [])).2) := by
  induction ts generalizing a b with
  | nil => simp
  | cons t ts ih =>
    have hX : List.foldl parse_sort_step (parse_sort_step ([], []) t) ts
        = ((parse_sort_step ([], []) t).1 ++ (List.foldl parse_sort_step ([], []) ts).1,
           (parse_sort_step ([], []) t).2 ++ (List.foldl parse_sort_step ([], []) ts).2) :=
      ih (parse_sort_step ([], []) t).1 (parse_sort_step ([], []) t).2
    rw [List.foldl_cons, List.foldl_cons, parse_sort_step_eq (a, b) t, ih, hX]
    simp [List.append_assoc]

theorem foldl_filter_eq_filterMap (ts : List String) :
    (ts.filter fun f => !f.data.isEmpty).foldl parse_sort_step ([], [])
      = ((ts.filterMap spec_sort_tok).map Prod.fst,
         (ts.filterMap spec_sort_tok).map fun d => d.2.pyName) := by
  induction ts with
  | nil => rfl
  | cons t ts ih =>
    by_cases he : t.data.isEmpty = true
    · have hg : spec_sort_tok t = none := by simp [spec_sort_tok, he]
      simp only [List.filter_cons, he, List.filterMap_cons, hg]
      simpa using ih
    · have hfil : (t :: ts).filter (fun f => !f.data.isEmpty)
          = t :: ts.filter (fun f => !f.data.isEmpty) := by
        simp [List.filter_cons, he]
      rw [hfil, List.foldl_cons]
      by_cases h1 : pyStartsWith t "-" = true
      · by_cases h2 : (pyStrip (String.mk t.data.tail)).data = []
        · have hstep : parse_sort_step ([], []) t = ([], []) := by
            simp [parse_sort_step, h1, h2]
          have hg : spec_sort_tok t = none := by simp [spec_sort_tok, he, h1, h2]
          rw [hstep, ih]
          simp [List.filterMap_cons, hg]
        · have hstep : parse_sort_step ([], []) t
              = ([pyStrip (String.mk t.data.tail)], ["desc"]) := by
            simp [parse_sort_step, h1, h2]
          have hg : spec_sort_tok t
              = some (pyStrip (String.mk t.data.tail), .desc) := by
            simp [spec_sort_tok, he, h1, h2]
          rw [hstep, foldl_parse_sort_step, ih]
          simp [List.filterMap_cons, hg, SortDir.pyName]
      · have hstep : parse_sort_step ([], []) t = ([t], ["asc"]) := by
          simp [parse_sort_step, h1]
        have hg : spec_sort_tok t = some (t, .asc) := by
          simp [spec_sort_tok, he, h1]
        rw [hstep, foldl_parse_sort_step, ih]
        simp [List.filterMap_cons, hg, SortDir.pyName]

/-- C7: the sort parser agrees, on every input string, with the
specification's algorithm (split on commas, trim, drop empty tokens, a
leading minus marks descending and is stripped, a lone minus is dropped,
input order preserved without deduplication), and yields the three concrete
results the specification names. -/
theorem sort_parser_matches_spec :
    (∀ s : String, parse_sort_string s
        = ((spec_parse_sort s).map Prod.fst,
           (spec_parse_sort s).map fun d => d.2.pyName))
    ∧ parse_sort_string "" = ([], [])
    ∧ parse_sort_string "-" = ([], [])
    ∧ parse_sort_string "a,-b,c" = (["a", "b", "c"], ["asc", "desc", "asc"])
    ∧ spec_parse_sort "a,-b,c" = [("a", .asc), ("b", .desc), ("c", .asc)] := by
  refine ⟨fun s => ?_, by decide, by decide, by decide, by decide⟩
  by_cases hbr : (s.data.isEmpty || (pyStrip s).data.isEmpty) = true
  · have hws : ∀ c ∈ s.data, c.isWhitespace := by
      rcases (by simpa using hbr :
          s.data = [] ∨ (pyStrip s).data = []) with h | h
      · intro c hc
        rw [h] at hc
        cases hc
      · exact all_ws_of_strip_empty h
    rw [spec_parse_sort_all_ws hws]
    simp [parse_sort_string, hbr]
  · simp only [parse_sort_string, spec_parse_sort, hbr, Bool.false_eq_true, if_false]
    exact foldl_filter_eq_filterMap _

theorem string_append_inj {c a b : String} (h : c ++ a = c ++ b) : a = b := by
  have hd := congrArg String.data h
  rw [String.data_append, String.data_append] at hd
  exact String.ext (List.append_cancel_left hd)

theorem string_append_ne {c a b : String} (h : a ≠ b) : c ++ a ≠ c ++ b :=
  fun hc => h (string_append_inj hc)

theorem string_append_ne_self {c x : String} (hx : x.data ≠ []) : c ++ x ≠ c := by
  intro h
  have hlen := congrArg String.length h
  rw [String.length_append] at hlen
  have hx' : 0 < x.length := by
    cases hd : x.data with
    | nil => exact absurd hd hx
    | cons a l => simp [String.length, hd]
  omega

theorem lookup_cons_of_ne {a k : String} {v : Value} {es : List (String × Value)}
    (h : a ≠ k) : List.lookup a ((k, v) :: es) = List.lookup a es := by
  simp [List.lookup, beq_eq_false_iff_ne.mpr h]

theorem lookup_append_right {target : String} {e1 e2 : List (String × Value)}
    (h : ∀ kv ∈ e1, kv.1 ≠ target) :
    (e1 ++ e2).lookup target = e2.lookup target := by
  induction e1 with
  | nil => rfl
  | cons kv t ih =>
    rcases kv with ⟨k, v⟩
    rw [List.cons_append,
      lookup_cons_of_ne fun hh => (h (k, v) (by simp)) hh.symm]
    exact ih fun x hx => h x (by simp [hx])

theorem mem_collect_op {f : String} {t : SqlType} {op : String}
    {provided : String → Option Value} {kv : String × Value}
    (h : kv ∈ collect_op f t op provided) : kv.1 = f ++ operator_suffix op := by
  rcases hp : provided ("filter_" ++ f ++ "_" ++ op) with _ | v <;>
    simp only [collect_op, hp] at h
  · cases h
  · repeat' split at h
    all_goals simp_all

theorem lookup_eq_none_of_ne {target : String} {l : List (String × Value)}
    (h : ∀ kv ∈ l, kv.1 ≠ target) : l.lookup target = none := by
  have h2 := @lookup_append_right target l [] h
  rw [List.append_nil] at h2
  exact h2

/-- C4: for a provided, non-empty `in` filter parameter on an integer
column, the collect function splits the raw string on commas, strips each
element and coerces it with `int()`; if every element parses the entry
`column__in` carries the parsed list, and if any element fails the whole
filter is dropped: no `column__in` key is emitted (and, the collect
function being total, no error is raised). -/
theorem in_filter_lenient_drop (c s : String) (provided : String → Option Value)
    (hprov : provided ("filter_" ++ c ++ "_in") = some (.vStr s))
    (hne : s.data ≠ []) :
    (((splitComma s).map pyStrip).mapM py_int? = none →
      (generated_filter_function [(c, .sInteger)] provided).lookup (c ++ "__in")
        = none)
    ∧ (∀ ns, ((splitComma s).map pyStrip).mapM py_int? = some ns →
      (generated_filter_function [(c, .sInteger)] provided).lookup (c ++ "__in")
        = some (.vIntList ns)) := by
  have hprov' : provided ("filter_" ++ c ++ "_" ++ "in") = some (.vStr s) := by
    rw [String.append_assoc, show ("_" ++ "in" : String) = "_in" from rfl]
    exact hprov
  have hmap : generated_filter_function [(c, .sInteger)] provided
      = collect_op c .sInteger "eq" provided ++ collect_op c .sInteger "in" provided := by
    simp [generated_filter_function, collect_field, get_operators_for_type]
  have c1 : (("in" : String) == "like") = false := rfl
  have c2 : (("in" : String) == "in") = true := rfl
  have c3 : (get_python_type .sInteger == PyType.pInt) = true := rfl
  have c4 : (Value.vStr s).truthy = true := by simp [Value.truthy, hne]
  have c5 : operator_suffix "in" = "__in" := rfl
  have c6 : (Value.vStr s).pyStr = s := rfl
  have hin : collect_op c .sInteger "in" provided
      = (match ((splitComma s).map pyStrip).mapM py_int? with
         | some ns => [(c ++ "__in", Value.vIntList ns)]
         | none => []) := by
    simp only [collect_op, hprov', c1, c2, c3, c4, c5, c6, Bool.false_eq_true,
      if_false, if_true]
  have heqkeys : ∀ kv ∈ collect_op c .sInteger "eq" provided, kv.1 ≠ c ++ "__in" := by
    intro kv hkv
    rw [mem_collect_op hkv, show operator_suffix "eq" = "" from rfl,
      String.append_empty]
    exact fun hh => string_append_ne_self (x := "__in") (by decide) hh.symm
  have hlookup : (generated_filter_function [(c, .sInteger)] provided).lookup (c ++ "__in")
      = (collect_op c .sInteger "in" provided).lookup (c ++ "__in") := by
    rw [hmap]
    exact lookup_append_right heqkeys
  constructor
  · intro hnone
    rw [hlookup, hin, hnone]
    rfl
  · intro ns hns
    rw [hlookup, hin, hns]
    simp [List.lookup]
    

/-- Witness for C4 at the specification's example: `"1,2,x"` on integer
column `id` emits no `id__in` key. -/
theorem in_filter_lenient_drop_witness :
    (generated_filter_function [("id", .sInteger)]
      (fun p => if p = "filter_id_in" then some (.vStr "1,2,x") else none)).lookup
        ("id" ++ "__in") = none := by
  have h := in_filter_lenient_drop "id" "1,2,x"
      (fun p => if p = "filter_id_in" then some (.vStr "1,2,x") else none)
      (by decide) (by decide)
  exact h.1 (by decide)

/-- C6 (amended): a provided, non-empty `like` filter parameter on a text
column contributes exactly one entry, keyed `column__ilike` (not
`column__like`), whose value wraps the raw value in percent wildcards; an
absent or empty parameter contributes no such entry. -/
theorem like_filter_wraps_wildcards (c : String) (provided : String → Option Value) :
    (∀ s : String, provided ("filter_" ++ c ++ "_like") = some (.vStr s) →
      s.data ≠ [] →
      (generated_filter_function [(c, .sString)] provided).lookup (c ++ "__ilike")
        = some (.vStr ("%" ++ s ++ "%")))
    ∧ (provided ("filter_" ++ c ++ "_like") = none →
      (generated_filter_function [(c, .sString)] provided).lookup (c ++ "__ilike")
        = none)
    ∧ (provided ("filter_" ++ c ++ "_like") = some (.vStr "") →
      (generated_filter_function [(c, .sString)] provided).lookup (c ++ "__ilike")
        = none) := by
  have hmap : generated_filter_function [(c, .sString)] provided
      = collect_op c .sString "eq" provided
        ++ (collect_op c .sString "like" provided
            ++ collect_op c .sString "in" provided) := by
    simp [generated_filter_function, collect_field, get_operators_for_type]
  have heqkeys : ∀ kv ∈ collect_op c .sString "eq" provided, kv.1 ≠ c ++ "__ilike" := by
    intro kv hkv
    rw [mem_collect_op hkv, show operator_suffix "eq" = "" from rfl,
      String.append_empty]
    exact fun hh => string_append_ne_self (x := "__ilike") (by decide) hh.symm
  have hinkeys : ∀ kv ∈ collect_op c .sString "in" provided, kv.1 ≠ c ++ "__ilike" := by
    intro kv hkv
    rw [mem_collect_op hkv, show operator_suffix "in" = "__in" from rfl]
    exact string_append_ne (by decide)
  have hlookup : (generated_filter_function [(c, .sString)] provided).lookup (c ++ "__ilike")
      = ((collect_op c .sString "like" provided
          ++ collect_op c .sString "in" provided).lookup (c ++ "__ilike")) := by
    rw [hmap]
    exact lookup_append_right heqkeys
  have hlikename : ("filter_" ++ c ++ "_" ++ "like" : String) = "filter_" ++ c ++ "_like" := by
    rw [String.append_assoc, show ("_" ++ "like" : String) = "_like" from rfl]
  have c1 : (("like" : String) == "like") = true := rfl
  have c2 : operator_suffix "like" = "__ilike" := rfl
  refine ⟨?_, ?_, ?_⟩
  · intro s hprov hne
    have hprov' : provided ("filter_" ++ c ++ "_" ++ "like") = some (.vStr s) := by
      rw [hlikename]; exact hprov
    have c4 : (Value.vStr s).truthy = true := by simp [Value.truthy, hne]
    have c6 : (Value.vStr s).pyStr = s := rfl
    have hlike : collect_op c .sString "like" provided
        = [(c ++ "__ilike", .vStr ("%" ++ s ++ "%"))] := by
      simp only [collect_op, hprov', c1, c2, c4, c6, if_true]
    rw [hlookup, hlike]
    simp [List.lookup]
  · intro hprov
    have hprov' : provided ("filter_" ++ c ++ "_" ++ "like") = none := by
      rw [hlikename]; exact hprov
    have hlike : collect_op c .sString "like" provided = [] := by
      simp only [collect_op, hprov']
    rw [hlookup, hlike, List.nil_append]
    exact lookup_eq_none_of_ne hinkeys
  · intro hprov
    have hprov' : provided ("filter_" ++ c ++ "_" ++ "like") = some (.vStr "") := by
      rw [hlikename]; exact hprov
    have hlike : collect_op c .sString "like" provided = [] := by
      simp only [collect_op, hprov', c1, if_true]
      simp [Value.truthy]
    rw [hlookup, hlike, List.nil_append]
    exact lookup_eq_none_of_ne hinkeys

/-- Witness for C6 at the concrete input `bob` on text column `name`: the
entry is keyed `name__ilike` with value `%bob%`; for an absent parameter no
entry appears. -/
theorem like_filter_wraps_wildcards_witness :
    (generated_filter_function [("name", .sString)]
      (fun p => if p = "filter_name_like" then some (.vStr "bob") else none)).lookup
        ("name" ++ "__ilike") = some (.vStr ("%" ++ "bob" ++ "%"))
    ∧ (generated_filter_function [("name", .sString)] (fun p => none)).lookup
        ("name" ++ "__ilike") = none := by
  constructor
  · exact (like_filter_wraps_wildcards "name"
      (fun p => if p = "filter_name_like" then some (.vStr "bob") else none)).1
      "bob" (by decide) (by decide)
  · exact (like_filter_wraps_wildcards "name" (fun p => none)).2.1 rfl

theorem apply_entry_unsupported_422 (m : ModelDB) (st : Statement) (k : String) (v : Value)
    (h : key_op k ∉ (["eq", "ilike", "in", "gte", "lte", "gt", "lt"] : List String)) :
    apply_filter_entry m st k v = .error (.http 422) := by
  simp only [List.mem_cons, List.not_mem_nil, or_false, not_or] at h
  obtain ⟨h1, h2, h3, h4, h5, h6, h7⟩ := h
  simp [apply_filter_entry, h1, h2, h3, h4, h5, h6, h7]

/-- C5 (amended): the per-entry dispatch of the predicate composer.  An
unsupported operator segment (the second element of the key split on `__`,
implicitly `eq` when the split is a single segment) reliably raises
`HTTPException(422)`.  An unknown column segment raises nothing at the
lookup itself (the 400 exception in the source is constructed but never
raised): with the `eq` operator the composer continues, appending the
constant-false clause `None == value`; with a non-`eq` supported operator
the entry then fails with a non-HTTP internal error (`AttributeError` for
`ilike`/`in`, `TypeError` for the ordered comparisons). -/
theorem filter_operator_dispatch :
    (∀ (m : ModelDB) (st : Statement) (k : String) (v : Value),
        key_op k ∉ (["eq", "ilike", "in", "gte", "lte", "gt", "lt"] : List String) →
        apply_filter_entry m st k v = .error (.http 422))
    ∧ (∀ (m : ModelDB) (st : Statement) (k : String) (v : Value),
        m.columns.contains (key_col k) = false → key_op k = "eq" →
        apply_filter_entry m st k v = .ok (st.filter (.boolLit false)))
    ∧ (∀ (m : ModelDB) (st : Statement) (k : String) (v : Value),
        m.columns.contains (key_col k) = false →
        (key_op k = "ilike" ∨ key_op k = "in") →
        apply_filter_entry m st k v = .error .attributeError)
    ∧ (∀ (m : ModelDB) (st : Statement) (k : String) (v : Value),
        m.columns.contains (key_col k) = false →
        (key_op k = "gte" ∨ key_op k = "lte" ∨ key_op k = "gt" ∨ key_op k = "lt") →
        apply_filter_entry m st k v = .error .typeError)
    ∧ (∀ (m : ModelDB) (st : Statement) (k : String) (v : Value),
        pyStartsWith k "created_at" = false →
        key_op k ∉ (["eq", "ilike", "in", "gte", "lte", "gt", "lt"] : List String) →
        set_filters st m [(k, v)] = .error (.http 422)) := by
  refine ⟨apply_entry_unsupported_422, ?_, ?_, ?_, ?_⟩
  · intro m st k v hcol hop
    have hc : key_col k ∉ m.columns := by simpa using hcol
    simp [apply_filter_entry, hop, hc]
  · intro m st k v hcol hop
    have hc : key_col k ∉ m.columns := by simpa using hcol
    rcases hop with h | h <;> simp [apply_filter_entry, h, hc]
  · intro m st k v hcol hop
    have hc : key_col k ∉ m.columns := by simpa using hcol
    rcases hop with h | h | h | h <;> simp [apply_filter_entry, h, hc]
  · intro m st k v hstart hop
    have happ := apply_entry_unsupported_422 m st k v hop
    simp [set_filters, created_at_pass, hstart, set_filters_loop, happ,
      Bind.bind, Except.bind]

/-- Witness for C5 at concrete entries over the `City` model. -/
theorem filter_operator_dispatch_witness :
    apply_filter_entry cityModel Statement.empty "id__neq" (.vInt 1)
        = .error (.http 422)
    ∧ apply_filter_entry cityModel Statement.empty "ghost" (.vStr "x")
        = .ok (Statement.empty.filter (.boolLit false))
    ∧ apply_filter_entry cityModel Statement.empty "ghost__ilike" (.vStr "x")
        = .error .attributeError
    ∧ apply_filter_entry cityModel Statement.empty "ghost__lt" (.vInt 1)
        = .error .typeError
    ∧ set_filters Statement.empty cityModel [("id__neq", .vInt 1)]
        = .error (.http 422) :=
  ⟨filter_operator_dispatch.1 _ _ _ _ (by decide),
    filter_operator_dispatch.2.1 _ _ _ _ (by decide) (by decide),
    filter_operator_dispatch.2.2.1 _ _ _ _ (by decide) (Or.inl (by decide)),
    filter_operator_dispatch.2.2.2.1 _ _ _ _ (by decide)
      (Or.inr (Or.inr (Or.inr (by decide)))),
    filter_operator_dispatch.2.2.2.2 _ _ _ _ (by decide) (by decide)⟩

theorem splitDunder_ne_nil (cs : List Char) : splitDunder cs ≠ [] := by
  rw [splitDunder.eq_def]
  split
  · simp
  · simp
  · split <;> simp

theorem noDunder_cons {c : Char} {rest : List Char}
    (h : noDunder (c :: rest) = true) : noDunder rest = true := by
  rw [noDunder.eq_def] at h
  split at h <;> simp_all

theorem noDunder_head {c d : Char} {rest : List Char}
    (h : noDunder (c :: d :: rest) = true) : ¬(c = '_' ∧ d = '_') := by
  rintro ⟨h1, h2⟩
  subst h1
  subst h2
  simp [noDunder] at h

theorem splitDunder_of_noDunder {cs : List Char} (h : noDunder cs = true) :
    splitDunder cs = [cs] := by
  induction cs with
  | nil => rfl
  | cons c rest ih =>
    cases rest with
    | nil =>
      rw [splitDunder.eq_def]
      split
      · simp_all
      · simp_all
      · rename_i c' rest' hne heq
        injection heq with e1 e2
        subst e1
        subst e2
        rfl
    | cons d r' =>
      have hnd := noDunder_head h
      have ih' := ih (noDunder_cons h)
      rw [splitDunder.eq_def]
      split
      · simp_all
      · rename_i heq
        injection heq with e1 e2
        injection e2 with e2 e3
        exact absurd ⟨e1, e2⟩ hnd
      · rename_i c' rest' hne heq
        injection heq with e1 e2
        subst e1
        subst e2
        rw [ih']

theorem splitDunder_append_dunder {f : List Char} (op : List Char)
    (h1 : noDunder f = true) (h2 : f.getLast? ≠ some '_') :
    splitDunder (f ++ '_' :: '_' :: op) = f :: splitDunder op := by
  induction f with
  | nil => rfl
  | cons c f' ih =>
    cases f' with
    | nil =>
      have hc : c ≠ '_' := by
        intro hc
        subst hc
        simp at h2
      rw [List.cons_append, List.nil_append, splitDunder.eq_def]
      split
      · simp_all
      · rename_i heq
        injection heq with e1 e2
        exact absurd e1 hc
      · rename_i c' rest' hne heq
        injection heq with e1 e2
        subst e1
        subst e2
        rw [show splitDunder ('_' :: '_' :: op) = [] :: splitDunder op from rfl]
    | cons d f'' =>
      have hnd := noDunder_head h1
      have h2' : (d :: f'').getLast? ≠ some '_' := by
        simpa [List.getLast?_cons_cons] using h2
      have ih' := ih (noDunder_cons h1) h2'
      simp only [List.cons_append] at ih' ⊢
      rw [splitDunder.eq_def]
      split
      · simp_all
      · rename_i heq
        injection heq with e1 e2
        injection e2 with e3 e4
        exact absurd ⟨e1, e3⟩ hnd
      · rename_i c' rest' hne heq
        injection heq with e1 e2
        subst e1
        rw [← e2, ih']

theorem key_parts_bare {f : String} (h1 : noDunder f.data = true) :
    key_op f = "eq" ∧ key_col f = f := by
  have hps : pySplitDunder f = [f] := by
    rw [pySplitDunder, splitDunder_of_noDunder h1]
    rfl
  exact ⟨by simp [key_op, hps], by simp [key_col, hps]⟩

theorem key_parts_append {f o : String} (h1 : noDunder f.data = true)
    (h2 : f.data.getLast? ≠ some '_') (h3 : splitDunder o.data = [o.data]) :
    key_op (f ++ "__" ++ o) = o ∧ key_col (f ++ "__" ++ o) = f := by
  have hdata : (f ++ "__" ++ o).data = f.data ++ '_' :: '_' :: o.data := by
    rw [String.data_append, String.data_append, List.append_assoc]
    rfl
  have hps : pySplitDunder (f ++ "__" ++ o) = [f, o] := by
    rw [pySplitDunder, hdata, splitDunder_append_dunder o.data h1 h2, h3]
    rfl
  exact ⟨by simp [key_op, hps], by simp [key_col, hps]⟩

theorem apply_ne_422_of_supported {k : String}
    (h : key_op k ∈ (["eq", "ilike", "in", "gte", "lte", "gt", "lt"] : List String)) :
    ∀ (m : ModelDB) (st : Statement) (v : Value),
      apply_filter_entry m st k v ≠ .error (.http 422) := by
  intro m st v
  rcases (by simpa using h :
      key_op k = "eq" ∨ key_op k = "ilike" ∨ key_op k = "in" ∨ key_op k = "gte"
        ∨ key_op k = "lte" ∨ key_op k = "gt" ∨ key_op k = "lt")
    with h1 | h1 | h1 | h1 | h1 | h1 | h1 <;>
  all_goals
    simp [apply_filter_entry, h1]
    split <;> simp

theorem created_at_pass_no_http (fs : List (String × Value)) :
    created_at_pass fs = .ok () ∨ created_at_pass fs = .error .attributeError := by
  induction fs with
  | nil => exact Or.inl rfl
  | cons kv rest ih =>
    rcases kv with ⟨k, v⟩
    by_cases hs : pyStartsWith k "created_at" = true
    · cases v <;> simp [created_at_pass, hs]
      exact ih
    · simp only [created_at_pass, hs, Bool.false_eq_true, if_false]
      exact ih

theorem set_filters_loop_ne_422 {m : ModelDB} {fs : List (String × Value)}
    (h : ∀ kv ∈ fs, ∀ st2 : Statement,
      apply_filter_entry m st2 kv.1 kv.2 ≠ .error (.http 422)) :
    ∀ st : Statement, set_filters_loop m st fs ≠ .error (.http 422) := by
  induction fs with
  | nil =>
    intro st
    simp [set_filters_loop]
  | cons kv rest ih =>
    intro st
    rcases kv with ⟨k, v⟩
    cases happ : apply_filter_entry m st k v with
    | error e =>
      have hne := h (k, v) (by simp) st
      rw [happ] at hne
      simp only [set_filters_loop]
      rw [happ]
      exact hne
    | ok st' =>
      simp only [set_filters_loop]
      rw [happ]
      exact ih (fun kv2 hkv2 st2 => h kv2 (by simp [hkv2]) st2) st'

theorem set_filters_ne_422 {m : ModelDB} {st : Statement} {fs : List (String × Value)}
    (h : ∀ kv ∈ fs, ∀ st2 : Statement,
      apply_filter_entry m st2 kv.1 kv.2 ≠ .error (.http 422)) :
    set_filters st m fs ≠ .error (.http 422) := by
  unfold set_filters
  by_cases he : fs.isEmpty = true
  · simp [he]
  · simp only [he, Bool.false_eq_true, if_false]
    rcases created_at_pass_no_http fs with hp | hp <;> rw [hp]
    · exact set_filters_loop_ne_422 h st
    · simp [Bind.bind, Except.bind]

theorem mem_collect_field {f : String} {t : SqlType}
    {provided : String → Option Value} {kv : String × Value} :
    ∀ {ops : List String}, kv ∈ collect_field f t provided ops →
      ∃ op ∈ ops, kv ∈ collect_op f t op provided := by
  intro ops h
  induction ops with
  | nil => cases h
  | cons o os ih =>
    rcases List.mem_append.mp h with h1 | h1
    · exact ⟨o, by simp, h1⟩
    · obtain ⟨o', ho', h2⟩ := ih h1
      exact ⟨o', by simp [ho'], h2⟩

theorem mem_generated {fields : List (String × SqlType)}
    {provided : String → Option Value} {kv : String × Value}
    (h : kv ∈ generated_filter_function fields provided) :
    ∃ ft ∈ fields, ∃ op ∈ get_operators_for_type ft.2,
      kv ∈ collect_op ft.1 ft.2 op provided := by
  induction fields with
  | nil => cases h
  | cons ft rest ih =>
    rcases ft with ⟨f, t⟩
    rcases List.mem_append.mp h with h1 | h1
    · obtain ⟨op, hop, h2⟩ := mem_collect_field h1
      exact ⟨(f, t), by simp, op, hop, h2⟩
    · obtain ⟨ft', hft', hrest⟩ := ih h1
      exact ⟨ft', by simp [hft'], hrest⟩

theorem generated_key_opinfo {fields : List (String × SqlType)}
    {provided : String → Option Value} {kv : String × Value}
    (hgood : ∀ ft ∈ fields, noDunder ft.1.data = true ∧ ft.1.data.getLast? ≠ some '_')
    (h : kv ∈ generated_filter_function fields provided) :
    (∃ ft ∈ fields, kv.1 = ft.1
        ∨ ∃ o ∈ (["ilike", "in", "gte", "lte", "gt", "lt"] : List String),
            kv.1 = ft.1 ++ "__" ++ o)
    ∧ key_op kv.1 ∈ (["eq", "ilike", "in", "gte", "lte", "gt", "lt"] : List String) := by
  obtain ⟨ft, hft, op, hop, hmem⟩ := mem_generated h
  obtain ⟨hnd, hlast⟩ := hgood ft hft
  have hkey := mem_collect_op hmem
  have hop7 : op = "eq" ∨ op = "like" ∨ op = "in" ∨ op = "gte" ∨ op = "lte"
      ∨ op = "gt" ∨ op = "lt" := by
    rcases ft with ⟨f, t⟩
    cases t <;> simp_all [get_operators_for_type] <;> tauto
  have hsfx :
      (op = "eq" ∧ kv.1 = ft.1)
      ∨ ∃ o ∈ (["ilike", "in", "gte", "lte", "gt", "lt"] : List String),
          kv.1 = ft.1 ++ "__" ++ o := by
    rcases hop7 with h1 | h1 | h1 | h1 | h1 | h1 | h1 <;> subst h1
    · exact Or.inl ⟨rfl, by rw [hkey, show operator_suffix "eq" = "" from rfl,
        String.append_empty]⟩
    · refine Or.inr ⟨"ilike", by simp, ?_⟩
      rw [hkey, show operator_suffix "like" = "__ilike" from rfl,
        String.append_assoc, show ("__" ++ "ilike" : String) = "__ilike" from rfl]
    · refine Or.inr ⟨"in", by simp, ?_⟩
      rw [hkey, show operator_suffix "in" = "__in" from rfl,
        String.append_assoc, show ("__" ++ "in" : String) = "__in" from rfl]
    · refine Or.inr ⟨"gte", by simp, ?_⟩
      rw [hkey, show operator_suffix "gte" = "__gte" from rfl,
        String.append_assoc, show ("__" ++ "gte" : String) = "__gte" from rfl]
    · refine Or.inr ⟨"lte", by simp, ?_⟩
      rw [hkey, show operator_suffix "lte" = "__lte" from rfl,
        String.append_assoc, show ("__" ++ "lte" : String) = "__lte" from rfl]
    · refine Or.inr ⟨"gt", by simp, ?_⟩
      rw [hkey, show operator_suffix "gt" = "__gt" from rfl,
        String.append_assoc, show ("__" ++ "gt" : String) = "__gt" from rfl]
    · refine Or.inr ⟨"lt", by simp, ?_⟩
      rw [hkey, show operator_suffix "lt" = "__lt" from rfl,
        String.append_assoc, show ("__" ++ "lt" : String) = "__lt" from rfl]
  constructor
  · rcases hsfx with ⟨_, hk⟩ | hk
    · exact ⟨ft, hft, Or.inl hk⟩
    · exact ⟨ft, hft, Or.inr hk⟩
  · rcases hsfx with ⟨_, hk⟩ | ⟨o, ho, hk⟩
    · rw [hk, (key_parts_bare hnd).1]
      simp
    · rcases (by simpa using ho :
          o = "ilike" ∨ o = "in" ∨ o = "gte" ∨ o = "lte" ∨ o = "gt" ∨ o = "lt")
        with h2 | h2 | h2 | h2 | h2 | h2 <;> subst h2 <;>
        rw [hk, (key_parts_append hnd hlast (by decide)).1] <;> simp

/-- C10 (amended): every key of a synthesizer-produced filter mapping is
either a bare column name (implicit `eq`) or `column__op` with `op` among
`{ilike, in, gte, lte, gt, lt}`; and provided no column name of the model
contains `__` or ends in `_`, the composer parses every such key back to a
supported operator, so its unsupported-operator 422 branch is unreachable,
both per entry and for the whole `set_filters` pass.  (Without that proviso
the branch is reachable; see the counterexample with a column named
`a__b`.) -/
theorem synthesized_keys_composer_safe
    (fields : List (String × SqlType)) (provided : String → Option Value)
    (hgood : ∀ ft ∈ fields, noDunder ft.1.data = true ∧ ft.1.data.getLast? ≠ some '_') :
    (∀ kv ∈ generated_filter_function fields provided,
      ∃ ft ∈ fields, kv.1 = ft.1
        ∨ ∃ o ∈ (["ilike", "in", "gte", "lte", "gt", "lt"] : List String),
            kv.1 = ft.1 ++ "__" ++ o)
    ∧ (∀ kv ∈ generated_filter_function fields provided,
        key_op kv.1 ∈ (["eq", "ilike", "in", "gte", "lte", "gt", "lt"] : List String))
    ∧ (∀ kv ∈ generated_filter_function fields provided, ∀ (m : ModelDB) (st : Statement),
        apply_filter_entry m st kv.1 kv.2 ≠ .error (.http 422))
    ∧ (∀ (m : ModelDB) (st : Statement),
        set_filters st m (generated_filter_function fields provided)
          ≠ .error (.http 422)) :=
  ⟨fun kv hkv => (generated_key_opinfo hgood hkv).1,
   fun kv hkv => (generated_key_opinfo hgood hkv).2,
   fun kv hkv m st => apply_ne_422_of_supported (generated_key_opinfo hgood hkv).2 m st kv.2,
   fun m st => set_filters_ne_422 fun kv hkv st2 =>
     apply_ne_422_of_supported (generated_key_opinfo hgood hkv).2 m st2 kv.2⟩

/-- Witness for C10 at the `City`-like single-column model `name`. -/
theorem synthesized_keys_composer_safe_witness :
    set_filters Statement.empty cityModel
        (generated_filter_function [("name", .sString)]
          (fun p => if p = "filter_name_like" then some (.vStr "bob") else none))
      ≠ .error (.http 422) :=
  (synthesized_keys_composer_safe [("name", .sString)]
    (fun p => if p = "filter_name_like" then some (.vStr "bob") else none)
    (by decide)).2.2.2 cityModel Statement.empty

theorem apply_filter_entry_ok_filter {m : ModelDB} {st st' : Statement}
    {k : String} {v : Value} (h : apply_filter_entry m st k v = .ok st') :
    ∃ p, st' = st.filter p := by
  unfold apply_filter_entry at h
  repeat' split at h
  all_goals first
    | (injection h with h2; exact ⟨_, h2.symm⟩)
    | injection h

theorem set_filters_loop_wheres_prefix {m : ModelDB} {fs : List (String × Value)} :
    ∀ {st st' : Statement}, set_filters_loop m st fs = .ok st' →
      ∃ ps, st'.wheres = st.wheres ++ ps := by
  induction fs with
  | nil =>
    intro st st' h
    injection h with h2
    exact ⟨[], by rw [← h2, List.append_nil]⟩
  | cons kv rest ih =>
    intro st st' h
    rcases kv with ⟨k, v⟩
    simp only [set_filters_loop] at h
    cases happ : apply_filter_entry m st k v with
    | error e =>
      rw [happ] at h
      injection h
    | ok st1 =>
      rw [happ] at h
      obtain ⟨p, hp⟩ := apply_filter_entry_ok_filter happ
      obtain ⟨ps, hps⟩ := ih h
      refine ⟨[p] ++ ps, ?_⟩
      rw [hps, hp]
      simp [Statement.filter]

theorem set_filters_wheres_prefix {m : ModelDB} {st st' : Statement}
    {fs : List (String × Value)} (h : set_filters st m fs = .ok st') :
    ∃ ps, st'.wheres = st.wheres ++ ps := by
  unfold set_filters at h
  by_cases he : fs.isEmpty = true
  · rw [if_pos he] at h
    injection h with h2
    exact ⟨[], by rw [← h2, List.append_nil]⟩
  · rw [if_neg he] at h
    rcases created_at_pass_no_http fs with hp | hp <;> rw [hp] at h
    · exact set_filters_loop_wheres_prefix h
    · injection h

/-- C1 (amended): the status scoping of each operation.  The list query
always applies the status equality predicate (the default status of
`CommonQueryParams` being `active`), and its composed statement starts with
that predicate.  The delete lookup requires `status_id ≠ deleted` and the
restore lookup requires `status_id = deleted`; but the view and update
operations look up purely by primary key — they succeed exactly when a row
with the id exists, regardless of its status. -/
theorem lifecycle_scope_by_operation :
    (({} : CommonQueryParams).status = Status.active)
    ∧ (∀ (m : ModelDB) (s : Status) (filters : List (String × Value))
        (sort : Option String) (st : Statement),
        get_list_statement m s filters sort = .ok st →
        st.wheres.head? = some (.statusEq s))
    ∧ (∀ (db : List Row) (i : Int),
        (∃ r, get_one db i = .ok r) ↔ ∃ r ∈ db, r.id = i)
    ∧ (∀ (db : List Row) (i : Int) (nm : Option String),
        (∃ res, update_one db i nm = .ok res) ↔ ∃ r ∈ db, r.id = i)
    ∧ (∀ (db : List Row) (i : Int),
        (∃ res, delete_one db i = .ok res)
          ↔ ∃ r ∈ db, r.id = i ∧ r.status_id ≠ .deleted)
    ∧ (∀ (db : List Row) (i : Int),
        (∃ res, restore_one db i = .ok res)
          ↔ ∃ r ∈ db, r.id = i ∧ r.status_id = .deleted) := by
  refine ⟨rfl, ?_, ?_, ?_, ?_, ?_⟩
  · intro m s filters sort st h
    simp only [get_list_statement] at h
    cases hsf : set_filters (set_status Statement.empty s) m filters with
    | error e =>
      rw [hsf] at h
      injection h
    | ok st1 =>
      rw [hsf] at h
      cases sort with
      | none =>
        have h' : Except.ok (ε := PyErr) st1 = Except.ok st := h
        have hst : st1 = st := by injection h'
        obtain ⟨ps, hps⟩ := set_filters_wheres_prefix hsf
        rw [← hst, hps]
        rfl
      | some s2 =>
        have h' : (Except.error PyErr.typeError : Except PyErr Statement)
            = Except.ok st := h
        injection h' 
  · intro db i
    constructor
    · rintro ⟨r, hr⟩
      unfold get_one at hr
      cases hf : db.find? (fun x => x.id == i) with
      | none => rw [hf] at hr; injection hr
      | some r' =>
        rw [hf] at hr
        exact ⟨r', List.mem_of_find?_eq_some hf, by simpa using List.find?_some hf⟩
    · rintro ⟨r, hmem, hid⟩
      cases hf : db.find? (fun x => x.id == i) with
      | none =>
        exfalso
        exact absurd (by simpa using hid)
          (by simpa using List.find?_eq_none.mp hf r hmem)
      | some r' => exact ⟨r', by simp [get_one, hf]⟩
  · intro db i nm
    constructor
    · rintro ⟨res, hres⟩
      unfold update_one at hres
      cases hf : db.find? (fun x => x.id == i) with
      | none => rw [hf] at hres; injection hres
      | some r' =>
        exact ⟨r', List.mem_of_find?_eq_some hf, by simpa using List.find?_some hf⟩
    · rintro ⟨r, hmem, hid⟩
      cases hf : db.find? (fun x => x.id == i) with
      | none =>
        exfalso
        exact absurd (by simpa using hid)
          (by simpa using List.find?_eq_none.mp hf r hmem)
      | some r' =>
        exact ⟨({ r' with name := nm.getD r'.name },
          updateFirst (fun x => x.id == i)
            (fun x => { x with name := nm.getD x.name }) db),
          by unfold update_one; rw [hf]⟩
  · intro db i
    constructor
    · rintro ⟨res, hres⟩
      unfold delete_one at hres
      cases hf : db.find? (fun x => x.id == i && !(x.status_id == Status.deleted)) with
      | none => rw [hf] at hres; injection hres
      | some r' =>
        have hp := List.find?_some hf
        simp only [Bool.and_eq_true, beq_iff_eq, Bool.not_eq_eq_eq_not,
          Bool.not_true, beq_eq_false_iff_ne] at hp
        exact ⟨r', List.mem_of_find?_eq_some hf, hp.1, hp.2⟩
    · rintro ⟨r, hmem, hid, hstat⟩
      cases hf : db.find? (fun x => x.id == i && !(x.status_id == Status.deleted)) with
      | none =>
        exfalso
        have := List.find?_eq_none.mp hf r hmem
        simp [hid, hstat] at this
      | some r' =>
        exact ⟨({ r' with status_id := Status.deleted },
          updateFirst (fun x => x.id == i && !(x.status_id == Status.deleted))
            (fun x => { x with status_id := Status.deleted }) db),
          by unfold delete_one; rw [hf]⟩
  · intro db i
    constructor
    · rintro ⟨res, hres⟩
      unfold restore_one at hres
      cases hf : db.find? (fun x => x.id == i && x.status_id == Status.deleted) with
      | none => rw [hf] at hres; injection hres
      | some r' =>
        have hp := List.find?_some hf
        simp only [Bool.and_eq_true, beq_iff_eq] at hp
        exact ⟨r', List.mem_of_find?_eq_some hf, hp.1, hp.2⟩
    · rintro ⟨r, hmem, hid, hstat⟩
      cases hf : db.find? (fun x => x.id == i && x.status_id == Status.deleted) with
      | none =>
        exfalso
        have := List.find?_eq_none.mp hf r hmem
        simp [hid, hstat] at this
      | some r' =>
        exact ⟨({ r' with status_id := Status.active },
          updateFirst (fun x => x.id == i && x.status_id == Status.deleted)
            (fun x => { x with status_id := Status.active }) db),
          by unfold restore_one; rw [hf]⟩

/-- Witness for C1 applied at concrete inputs: the empty-parameter list
statement over `City` starts with the active-status predicate; view and
update succeed on a table whose only row is `deleted` (no status
constraint), while delete refuses it and restore accepts it. -/
theorem lifecycle_scope_by_operation_witness :
    (⟨[.statusEq .active], []⟩ : Statement).wheres.head?
        = some (.statusEq Status.active)
    ∧ (∃ r, get_one [⟨1, .deleted, "gone"⟩] 1 = .ok r)
    ∧ (∃ res, update_one [⟨1, .deleted, "gone"⟩] 1 (some "n") = .ok res)
    ∧ ¬(∃ res, delete_one [⟨1, .deleted, "gone"⟩] 1 = .ok res)
    ∧ (∃ res, restore_one [⟨1, .deleted, "gone"⟩] 1 = .ok res) := by
  refine ⟨?_, ?_, ?_, ?_, ?_⟩
  · exact lifecycle_scope_by_operation.2.1 cityModel .active [] none
      ⟨[.statusEq .active], []⟩ (by decide)
  · exact (lifecycle_scope_by_operation.2.2.1 _ _).mpr
      ⟨⟨1, .deleted, "gone"⟩, by decide, rfl⟩
  · exact (lifecycle_scope_by_operation.2.2.2.1 _ _ _).mpr
      ⟨⟨1, .deleted, "gone"⟩, by decide, rfl⟩
  · intro hcon
    obtain ⟨r, hmem, hid, hstat⟩ :=
      (lifecycle_scope_by_operation.2.2.2.2.1 _ _).mp hcon
    have : r = ⟨1, .deleted, "gone"⟩ := by simpa using hmem
    rw [this] at hstat
    exact hstat rfl
  · exact (lifecycle_scope_by_operation.2.2.2.2.2 _ _).mpr
      ⟨⟨1, .deleted, "gone"⟩, by decide, rfl, rfl⟩

theorem find?_eq_of_unique {db : List Row} {i : Int} {r : Row} {p : Row → Bool}
    (hnd : (db.map Row.id).Nodup) (hmem : r ∈ db) (hp : p r = true)
    (hid : ∀ x, p x = true → x.id = i) (hri : r.id = i) :
    db.find? p = some r := by
  induction db with
  | nil => cases hmem
  | cons h t ih =>
    rw [List.map_cons, List.nodup_cons] at hnd
    by_cases hph : p h = true
    · rw [List.find?_cons_of_pos _ hph]
      rcases List.mem_cons.mp hmem with he | ht
    -- if r sits in the tail, its id collides with the head's id
      · rw [he]
      · exfalso
        exact hnd.1 (by rw [hid h hph, ← hri]; exact List.mem_map_of_mem _ ht)
    · rw [List.find?_cons_of_neg _ hph]
      rcases List.mem_cons.mp hmem with he | ht
      · exact absurd (he ▸ hp) hph
      · exact ih hnd.2 ht

theorem updateFirst_unique {db : List Row} {i : Int} {r : Row} {p : Row → Bool}
    {f : Row → Row} (hnd : (db.map Row.id).Nodup) (hfind : db.find? p = some r)
    (hid : ∀ x, p x = true → x.id = i) (hfid : ∀ y, (f y).id = y.id) :
    ∀ x ∈ updateFirst p f db, x.id = i → x = f r := by
  induction db with
  | nil =>
    intro x hx
    cases hx
  | cons h t ih =>
    intro x hx hxi
    rw [List.map_cons, List.nodup_cons] at hnd
    by_cases hph : p h = true
    · rw [List.find?_cons_of_pos _ hph] at hfind
      injection hfind with hr
      unfold updateFirst at hx
      rw [if_pos hph] at hx
      rcases List.mem_cons.mp hx with he | hxt
      · rw [he, hr]
      · exfalso
        exact hnd.1 (by rw [hid h hph, ← hxi]; exact List.mem_map_of_mem _ hxt)
    · rw [List.find?_cons_of_neg _ hph] at hfind
      unfold updateFirst at hx
      rw [if_neg hph] at hx
      rcases List.mem_cons.mp hx with he | hxt
      · exfalso
        have hrt : r ∈ t := List.mem_of_find?_eq_some hfind
        have hri : r.id = i := hid r (List.find?_some hfind)
        refine hnd.1 ?_
        rw [← he, hxi, ← hri]
        exact List.mem_map_of_mem _ hrt
      · exact ih hnd.2 hfind x hxt hxi

/-- C8: the soft-delete/restore round trip over a table with unique primary
keys.  Deleting a row that exists and is not in `deleted` status sets its
status to `deleted` and returns the record; the committed table no longer
shows any row with that id in the default `active` list scope; a second
delete of the same id fails with 404.  Restoring a row in `deleted` status
sets it back to `active` and returns the record. -/
theorem soft_delete_restore_roundtrip :
    (∀ (db : List Row) (i : Int) (r : Row),
      (db.map Row.id).Nodup → r ∈ db → r.id = i → r.status_id ≠ .deleted →
      ∃ db' : List Row,
        delete_one db i = .ok ({ r with status_id := .deleted }, db')
        ∧ (∀ x ∈ list_default_scope db' .active, x.id ≠ i)
        ∧ delete_one db' i = .error (.http 404))
    ∧ (∀ (db : List Row) (i : Int) (r : Row),
      (db.map Row.id).Nodup → r ∈ db → r.id = i → r.status_id = .deleted →
      ∃ db' : List Row,
        restore_one db i = .ok ({ r with status_id := .active }, db')) := by
  constructor
  · intro db i r hnd hmem hri hstat
    have hp : (fun x : Row => x.id == i && !(x.status_id == Status.deleted)) r
        = true := by
      simp [hri, hstat]
    have hid : ∀ x : Row,
        (fun x : Row => x.id == i && !(x.status_id == Status.deleted)) x = true →
        x.id = i := by
      intro x hx
      simp at hx
      exact hx.1
    have hfind := find?_eq_of_unique hnd hmem hp hid hri
    refine ⟨updateFirst (fun x => x.id == i && !(x.status_id == Status.deleted))
        (fun x => { x with status_id := Status.deleted }) db, ?_, ?_, ?_⟩
    · unfold delete_one
      rw [hfind]
    · intro x hx hxi
      have hx' := List.mem_filter.mp hx
      have hxf := updateFirst_unique
        (f := fun x => { x with status_id := Status.deleted })
        hnd hfind hid (fun y => rfl) x hx'.1 hxi
      have := hx'.2
      rw [hxf] at this
      simp at this
    · unfold delete_one
      have hnone : (updateFirst (fun x => x.id == i && !(x.status_id == Status.deleted))
          (fun x => { x with status_id := Status.deleted }) db).find?
            (fun x => x.id == i && !(x.status_id == Status.deleted)) = none := by
        rw [List.find?_eq_none]
        intro x hx hpx
        have hxf := updateFirst_unique
          (f := fun x => { x with status_id := Status.deleted })
          hnd hfind hid (fun y => rfl) x hx (hid x hpx)
        rw [hxf] at hpx
        simp at hpx
      rw [hnone]
  · intro db i r hnd hmem hri hstat
    have hp : (fun x : Row => x.id == i && x.status_id == Status.deleted) r
        = true := by
      simp [hri, hstat]
    have hid : ∀ x : Row,
        (fun x : Row => x.id == i && x.status_id == Status.deleted) x = true →
        x.id = i := by
      intro x hx
      simp at hx
      exact hx.1
    have hfind := find?_eq_of_unique hnd hmem hp hid hri
    refine ⟨updateFirst (fun x => x.id == i && x.status_id == Status.deleted)
        (fun x => { x with status_id := Status.active }) db, ?_⟩
    unfold restore_one
    rw [hfind]

/-- Witness for C8: delete then re-delete on a one-row active table, and
restore on a one-row deleted table. -/
theorem soft_delete_restore_roundtrip_witness :
    (∃ db' : List Row,
      delete_one [⟨1, .active, "a"⟩] 1 = .ok (⟨1, .deleted, "a"⟩, db')
      ∧ (∀ x ∈ list_default_scope db' .active, x.id ≠ 1)
      ∧ delete_one db' 1 = .error (.http 404))
    ∧ (∃ db' : List Row,
      restore_one [⟨2, .deleted, "b"⟩] 2 = .ok (⟨2, .active, "b"⟩, db')) :=
  ⟨soft_delete_restore_roundtrip.1 [⟨1, .active, "a"⟩] 1 ⟨1, .active, "a"⟩
      (by decide) (by decide) rfl (by decide),
    soft_delete_restore_roundtrip.2 [⟨2, .deleted, "b"⟩] 2 ⟨2, .deleted, "b"⟩
      (by decide) (by decide) rfl rfl⟩
